import Mathlib

/-!
Shallow embedding of the fiber-based UI reconciliation engine
(`src/myReact.ts`) and its cooperative scheduler (`scheduler.ts`).

Modelling conventions:
* JavaScript strict equality (`===`) and `Object.is` on primitive values and
  object references are modelled as equality of identity codes (`JVal`):
  two occurrences of the same primitive value or the same object reference
  carry the same code, distinct objects carry distinct codes.
* `undefined` is the dedicated constructor `JVal.undef`; out-of-range array
  reads (`old.deps![i]`) produce it.
* Fiber/element `key` values (`string | number | null | undefined`) are the
  four-constructor type `JKey`; `===` on keys is structural equality there.
* Element `type` (`string | Function | symbol`) is `EType`: a host tag
  string, a function component identified by reference code, or the
  `TEXT_ELEMENT` symbol.  The source compares types with loose `==`, which
  on these shapes coincides with strict structural equality.
* DOM nodes are opaque handles (`Nat`); adapter mutations are recorded as a
  trace of `DomOp` events instead of being performed.
-/

namespace MyReactSpec

/-- Identity code of a JavaScript value: `undef` is `undefined`; `val n` is
any other primitive value or object reference, with `===`/`Object.is`
holding exactly when the codes agree. -/
inductive JVal where
  | undef
  | str (s : String)
  | val (code : Nat)
deriving DecidableEq, Repr

/-- A fiber/element key: `string | number | null`, or `undefined` when the
field was never set (text elements). -/
inductive JKey where
  | undef
  | null
  | str (s : String)
  | num (n : Int)
deriving DecidableEq, Repr

/-- `ElementType = string | Function | symbol`: a host tag, a function
component (by reference identity), or the `TEXT_ELEMENT` symbol. -/
inductive EType where
  | host (tag : String)
  | comp (ref : Nat)
  | text
deriving DecidableEq, Repr

/-- A virtual-DOM node as produced by `createElement`/`createTextElement`:
`{ type, key, props }` with `props = { ...attrs, children }`. -/
inductive VNode where
  | mk (type : EType) (key : JKey) (attrs : List (String × JVal))
      (children : List VNode)

/-- projection: `element.type` -/
def VNode.type : VNode → EType
  | .mk t _ _ _ => t

/-- projection: `element.key` -/
def VNode.key : VNode → JKey
  | .mk _ k _ _ => k

/-- projection: the non-`children` entries of `element.props`, in insertion
order. -/
def VNode.attrs : VNode → List (String × JVal)
  | .mk _ _ a _ => a

/-- projection: `element.props.children` -/
def VNode.children : VNode → List VNode
  | .mk _ _ _ c => c

/-- `Object.keys(props)`: the attribute names followed by the `"children"`
entry (which `createElement` always writes last). -/
def propKeys (attrs : List (String × JVal)) : List String :=
  attrs.map Prod.fst ++ ["children"]

/-- `props[k]` for a non-`children` key: the stored value, or `undefined`
when the key is absent. -/
def lookupProp (attrs : List (String × JVal)) (k : String) : JVal :=
  ((attrs.find? (fun p => p.fst = k)).map Prod.snd).getD JVal.undef

/-- The `needsUpdate` computation of `reconcileChildren` (myReact.ts
lines 237-254): props differ when `Object.keys` counts differ, or some
non-`children` key maps to `!==`-different values. -/
def needsUpdate (oldAttrs newAttrs : List (String × JVal)) : Bool :=
  if (propKeys oldAttrs).length ≠ (propKeys newAttrs).length then true
  else (propKeys newAttrs).any fun k =>
    k ≠ "children" && lookupProp oldAttrs k ≠ lookupProp newAttrs k

/-- `effectTag` values. -/
inductive ETag where
  | placement
  | update
  | deletion
deriving DecidableEq, Repr

/-- An old (committed-pass) child fiber as consumed by `reconcileChildren`:
its type, key, non-children props and DOM handle. -/
structure OldFiber where
  type : EType
  key : JKey
  attrs : List (String × JVal)
  dom : Option Nat
deriving DecidableEq, Repr

/-- A work-in-progress child fiber as produced by `reconcileChildren`. -/
structure NewFiber where
  type : EType
  key : JKey
  attrs : List (String × JVal)
  children : List VNode
  dom : Option Nat
  effectTag : Option ETag
  alternate : Option OldFiber

/-- `sameType` (myReact.ts lines 229-233): loose type equality and strict
key equality against the positional old fiber. -/
def sameTypeB (o : OldFiber) (e : VNode) : Bool :=
  decide (e.type = o.type) && decide (e.key = o.key)

/-- The `sameType` branch (lines 256-266): reuse the old fiber's type, key
and DOM handle, take the new props, and tag `UPDATE` only when props
actually differ. -/
def updateFiber (o : OldFiber) (e : VNode) : NewFiber :=
  { type := o.type
    key := o.key
    attrs := e.attrs
    children := e.children
    dom := o.dom
    effectTag := if needsUpdate o.attrs e.attrs then some .update else none
    alternate := some o }

/-- The `element && !sameType` branch (lines 269-282): a fresh fiber with no
DOM handle, tagged `PLACEMENT`. -/
def placementFiber (e : VNode) : NewFiber :=
  { type := e.type
    key := e.key
    attrs := e.attrs
    children := e.children
    dom := none
    effectTag := some .placement
    alternate := none }

/-- `reconcileChildren` (myReact.ts lines 220-305): walks the new element
list and the old sibling chain in lockstep by positional index, producing
the new child fibers and the deletions queued in loop order.  An entry
`none` in the element list is a `null`/`undefined` child (falsy in the
source: no new fiber, and any positional old fiber is deleted). -/
def reconcileChildren : List (Option VNode) → List OldFiber →
    List NewFiber × List OldFiber
  | [], olds => ([], olds)
  | none :: es, [] =>
      reconcileChildren es []
  | none :: es, o :: os =>
      let r := reconcileChildren es os
      (r.1, o :: r.2)
  | some e :: es, [] =>
      let r := reconcileChildren es []
      (placementFiber e :: r.1, r.2)
  | some e :: es, o :: os =>
      if sameTypeB o e then
        let r := reconcileChildren es os
        (updateFiber o e :: r.1, r.2)
      else
        let r := reconcileChildren es os
        (placementFiber e :: r.1, o :: r.2)

/-- A JavaScript value passed to `createElement` as a child: a recognized
node object, `null`, an (arbitrarily nested) array, or a non-object
primitive. -/
inductive JChild where
  | node (v : VNode)
  | jnull
  | arr (xs : List JChild)
  | str (s : String)
  | num (n : Int)
  | bool (b : Bool)
  | undef

/-- `typeof c === "object"`: true for node objects, `null` and arrays. -/
def typeofIsObject : JChild → Bool
  | .node _ => true
  | .jnull => true
  | .arr _ => true
  | _ => false

/-- `String(c)` on the non-object shapes the coercion branch can see. -/
def jsString : JChild → String
  | .str s => s
  | .num n => toString n
  | .bool b => if b then "true" else "false"
  | .undef => "undefined"
  | .node _ => "[object Object]"
  | .jnull => "null"
  | .arr _ => ""

/-- `createTextElement` (myReact.ts lines 75-80): a `TEXT_ELEMENT` node with
the text stored under the `nodeValue` prop-key slot (here, as the key of a
text node it never carries a `key`, so the key field is `undefined`). -/
def createTextElement (text : String) : VNode :=
  VNode.mk .text .undef [("nodeValue", JVal.str text)] []

/-- `children.flat()`: flattening of child lists, one level deep (the
default depth of `Array.prototype.flat`). -/
def flatOne : List JChild → List JChild
  | [] => []
  | .arr xs :: rest => xs ++ flatOne rest
  | c :: rest => c :: flatOne rest

/-- The per-child coercion of `createElement` (line 95):
`typeof c === "object" ? c : createTextElement(String(c))`. -/
def coerceChild (c : JChild) : JChild :=
  if typeofIsObject c then c else .node (createTextElement (jsString c))

/-- The children computation of `createElement` (myReact.ts lines 93-95):
one-level flatten, then coercion of each non-object entry to a text
node. -/
def createElementChildren (children : List JChild) : List JChild :=
  (flatOne children).map coerceChild

/-- Is this child a recognized node object (a `VNode`)?  Text elements are
`VNode`s of type `TEXT_ELEMENT`, so they count. -/
def isNodeObject : JChild → Bool
  | .node _ => true
  | _ => false

/-! ## useEffect dependency comparison (myReact.ts lines 383-396) -/

/-- `Object.is` on modelled values: identity-code equality. -/
def objectIs (a b : JVal) : Bool := a == b

/-- `old.deps![i]`: array read that yields `undefined` out of range. -/
def getUndef (l : List JVal) (i : Nat) : JVal :=
  (l.get? i).getD JVal.undef

/-- `deps.some((d, i) => !Object.is(d, old.deps![i]))`. -/
def someDepDiffers (deps oldDeps : List JVal) : Bool :=
  (List.range deps.length).any fun i =>
    !objectIs (getUndef deps i) (getUndef oldDeps i)

/-- The `changed` flag of `useEffect` (lines 388-391): absent new list or
absent old list means changed; otherwise `deps.some(...)` over the new
list's indices. -/
def depsChanged (deps oldDeps : Option (List JVal)) : Bool :=
  match deps with
  | none => true
  | some ds =>
      match oldDeps with
      | none => true
      | some os => someDepDiffers ds os

/-- An effect hook slot `{ deps, cb, cleanup }`; the callback and the
pending cleanup closure are tracked by identity code. -/
structure EffectSlot where
  deps : Option (List JVal)
  cbId : Nat
  cleanup : Option Nat
deriving DecidableEq, Repr

/-- The body of `useEffect` after the context guard (lines 386-395): read
the alternate slot (`?? {}` gives a record with `deps` and `cleanup`
`undefined`), compute `changed`, build the new slot preserving the old
cleanup, and append it to `pendingEffects` exactly when changed.  Returns
the stored slot and the updated pending-effects queue. -/
def useEffectStep (oldSlot : Option EffectSlot) (deps : Option (List JVal))
    (cbId : Nat) (pendingEffects : List EffectSlot) :
    EffectSlot × List EffectSlot :=
  let oldDeps : Option (List JVal) :=
    match oldSlot with
    | some o => o.deps
    | none => none
  let oldCleanup : Option Nat :=
    match oldSlot with
    | some o => o.cleanup
    | none => none
  let changed := depsChanged deps oldDeps
  let h : EffectSlot := { deps := deps, cbId := cbId, cleanup := oldCleanup }
  (h, if changed then pendingEffects ++ [h] else pendingEffects)

/-! ## State hook (myReact.ts lines 316-360) -/

/-- A queued state action: a replacement value or a function of the
previous value. -/
inductive Act (S : Type) where
  | value (v : S)
  | fn (f : S → S)

/-- One step of the queue-draining loop (lines 332-338). -/
def applyAct {S : Type} (s : S) : Act S → S
  | .value v => v
  | .fn f => f s

/-- The `while (hook.queue.length > 0)` drain: FIFO fold of the queued
actions over the slot's state. -/
def drainQueue {S : Type} (s : S) (q : List (Act S)) : S :=
  q.foldl applyAct s

/-- A state hook slot `{ state, queue }`. -/
structure StateSlot (S : Type) where
  state : S
  queue : List (Act S)

/-- `useState` (lines 316-359) at the level of one hook slot.  The first
argument is the active hook context: `none` when no component invocation is
active (`wipFiber` is null), otherwise the alternate fiber's slot at the
current hook index (or `none` of that on first render).  Throws before
touching any state when the context is absent; otherwise drains the
pending queue FIFO and stores the slot with an emptied queue, returning
the slot and the state value handed to the component. -/
def useStateCall {S : Type} (ctx : Option (Option (StateSlot S))) (init : S) :
    Except String (StateSlot S × S) :=
  match ctx with
  | none => .error "Hooks outside component"
  | some oldHook =>
      let st0 : S :=
        match oldHook with
        | some o => o.state
        | none => init
      let q0 : List (Act S) :=
        match oldHook with
        | some o => o.queue
        | none => []
      let s := drainQueue st0 q0
      .ok ({ state := s, queue := [] }, s)

/-- `useEffect` (lines 383-396) including its context guard: throws before
any queueing when no component invocation is active, else performs
`useEffectStep`. -/
def useEffectCall (ctx : Option (Option EffectSlot)) (deps : Option (List JVal))
    (cbId : Nat) (pendingEffects : List EffectSlot) :
    Except String (EffectSlot × List EffectSlot) :=
  match ctx with
  | none => .error "useEffect outside component"
  | some oldSlot => .ok (useEffectStep oldSlot deps cbId pendingEffects)

/-! ## Commit phase (myReact.ts lines 177-218, 398-406) -/

/-- A fiber of a committed/work-in-progress tree as walked by `commitWork`:
its DOM handle, effect tag, and `child`/`sibling` links (`nil` is the null
pointer ending a chain). -/
inductive FiberT where
  | nil
  | mk (dom : Option Nat) (tag : Option ETag) (child : FiberT) (sibling : FiberT)
deriving DecidableEq, Repr

/-- Adapter/DOM mutations and effect executions, recorded as a trace. -/
inductive DomOp where
  | appendChild (parent child : Nat)
  | removeChild (parent child : Nat)
  | updateProps (dom : Nat)
  | runCleanup (cleanupId : Nat)
  | runCallback (cbId : Nat)
deriving DecidableEq, Repr

/-- `commitDeletion` (lines 212-218): remove the fiber's handle from the
given DOM parent, or recurse into the child when the fiber owns no handle
(function components). -/
def commitDeletionOps (domParent : Nat) : FiberT → List DomOp
  | .nil => []
  | .mk dom _ child _ =>
      match dom with
      | some d => [.removeChild domParent d]
      | none => commitDeletionOps domParent child

/-- `commitWork` (lines 186-210) on the work-in-progress tree.  The first
argument is the handle of the nearest ancestor fiber owning a DOM node
(the source finds it by walking `parent` links; here it is passed down).
Placement appends under that parent, Update re-applies props in place,
Deletion removes via `commitDeletionOps`; children are skipped below a
Deletion, and siblings share the caller's DOM parent. -/
def commitWork (domParent : Option Nat) : FiberT → List DomOp
  | .nil => []
  | .mk dom tag child sibling =>
      let selfOps : List DomOp :=
        match tag with
        | some .placement =>
            match dom, domParent with
            | some d, some p => [.appendChild p d]
            | _, _ => []
        | some .update =>
            match dom with
            | some d => [.updateProps d]
            | none => []
        | some .deletion =>
            match domParent with
            | some p => commitDeletionOps p (.mk dom tag child sibling)
            | none => []
        | none => []
      let childParent : Option Nat :=
        match dom with
        | some d => some d
        | none => domParent
      let childOps : List DomOp :=
        if tag = some ETag.deletion then [] else commitWork childParent child
      selfOps ++ childOps ++ commitWork domParent sibling

/-- An effect record at flush time: identity of the callback, identity of
the pending cleanup (if any), and the identity of the cleanup the callback
returns (if its return value is a function). -/
structure EffectRec where
  cbId : Nat
  pendingCleanup : Option Nat
  returnedCleanup : Option Nat
deriving DecidableEq, Repr

/-- `flushEffects`' `forEach` body (lines 401-405) applied along the
drained queue, in FIFO order: run the pending cleanup (when present),
then the callback, then store the returned cleanup into the record.
Returns the event trace and the post-flush records. -/
def flushEffectsGo : List EffectRec → List DomOp × List EffectRec
  | [] => ([], [])
  | h :: t =>
      let own : List DomOp :=
        (match h.pendingCleanup with
          | some c => [DomOp.runCleanup c]
          | none => []) ++ [DomOp.runCallback h.cbId]
      let h1 : EffectRec := { h with pendingCleanup := h.returnedCleanup }
      let r := flushEffectsGo t
      (own ++ r.1, h1 :: r.2)

/-- The state consumed by `commitRoot`: the queued deletions (each with the
DOM parent its old-tree `parent` chain resolves to), the work-in-progress
root's child and the root's own handle, the pending effect queue, and the
current root (`currentRoot`). -/
structure CommitState where
  deletions : List (Option Nat × FiberT)
  wipDom : Option Nat
  wipChild : FiberT
  pendingEffects : List EffectRec
  currentRoot : Option (Option Nat × FiberT)
deriving Repr

/-- `commitRoot` (lines 177-184): commit every queued deletion, then walk
the work-in-progress tree committing placements/updates, then flush the
effect queue, and finally swap the work-in-progress root in as the current
root (clearing `wipRoot`).  Returns the full mutation/effect trace and the
post-commit state (`wipRoot = null` is implicit: the work-in-progress
fields are consumed). -/
def commitRoot (st : CommitState) : List DomOp × CommitState :=
  let delOps : List DomOp :=
    (st.deletions.map fun pf => commitWork pf.1 pf.2).flatten
  let treeOps : List DomOp := commitWork st.wipDom st.wipChild
  let fl := flushEffectsGo st.pendingEffects
  (delOps ++ treeOps ++ fl.1,
    { deletions := []
      wipDom := st.wipDom
      wipChild := st.wipChild
      pendingEffects := []
      currentRoot := some (st.wipDom, st.wipChild) })

/-! ## Lanes, the lane registry and the work loop (myReact.ts lines 11-16,
54-62, 407-467) -/

/-- The three priority lanes, totally ordered Immediate > Transition >
Idle. -/
inductive Lane where
  | immediate
  | transition
  | idle
deriving DecidableEq, Repr, Fintype

/-- Position of a lane in the selection order `[Immediate, Transition,
Idle]` scanned by `workLoop` (smaller scans first). -/
def lanePrio : Lane → Nat
  | .immediate => 0
  | .transition => 1
  | .idle => 2

/-- Occupancy of the `laneRoots` registry: whether each lane currently
holds a pending work-in-progress root. -/
structure LaneRoots where
  imm : Bool
  trans : Bool
  idl : Bool
deriving DecidableEq, Repr, Fintype

/-- `laneRoots[l]` (truthiness of the stored root). -/
def LaneRoots.get (r : LaneRoots) : Lane → Bool
  | .immediate => r.imm
  | .transition => r.trans
  | .idle => r.idl

/-- Write one registry slot. -/
def LaneRoots.set (r : LaneRoots) : Lane → Bool → LaneRoots
  | .immediate, b => { r with imm := b }
  | .transition, b => { r with trans := b }
  | .idle, b => { r with idl := b }

/-- `[Lane.Immediate, Lane.Transition, Lane.Idle].find(l => laneRoots[l])`
(lines 434-436): the highest-priority non-empty lane, if any. -/
def selectLane (r : LaneRoots) : Option Lane :=
  if r.imm then some .immediate
  else if r.trans then some .transition
  else if r.idl then some .idle
  else none

/-- The ambient engine state relevant to state updates and the work loop.
The rendered tree is abstracted to the single state hook the scenario
exercises: `committed` is its committed value (what the committed tree
displays), `queue` the hook slot's pending action queue (living on the
committed fiber, hence shared by every lane's pending root), `lanes` the
registry occupancy, `isWorkLoopScheduled` the scheduling flag, `tasks` the
number of `workLoop` tasks sitting in the scheduler queue, and `commitLog`
the sequence of performed commits (lane and committed value). -/
structure Machine (S : Type) where
  committed : S
  queue : List (Act S)
  lanes : LaneRoots
  isWorkLoopScheduled : Bool
  tasks : Nat
  commitLog : List (Lane × S)

/-- The engine at rest after an initial commit of state `s0`. -/
def initMachine {S : Type} (s0 : S) : Machine S :=
  { committed := s0
    queue := []
    lanes := { imm := false, trans := false, idl := false }
    isWorkLoopScheduled := false
    tasks := 0
    commitLog := [] }

/-- `scheduleLane` (lines 414-425): store the new work-in-progress root in
the lane's slot, or merge into the one already there (`mergeRoot` only
replaces props, so occupancy and the hook queue are unchanged); then, if
no work-loop task is scheduled, schedule one. -/
def scheduleLaneM {S : Type} (lane : Lane) (m : Machine S) : Machine S :=
  let m1 := { m with lanes := m.lanes.set lane true }
  if m1.isWorkLoopScheduled then m1
  else { m1 with isWorkLoopScheduled := true, tasks := m1.tasks + 1 }

/-- The `setState` closure (lines 339-353): push the action onto the hook
slot's queue, rebuild a work-in-progress root from the current root tagged
with the ambient lane, and submit it via `scheduleLane`. -/
def setStateM {S : Type} (lane : Lane) (a : Act S) (m : Machine S) : Machine S :=
  scheduleLaneM lane { m with queue := m.queue ++ [a] }

/-- `workLoop` (lines 431-467): clear the scheduling flag; pick the
highest-priority non-empty lane (returning untouched if none); clear that
lane's registry slot; drive the walk to exhaustion — re-rendering the
component drains the hook queue FIFO over the committed state — and
commit; then, if any lane still holds pending work and no work-loop task
is scheduled, schedule another task instead of processing it now. -/
def workLoopM {S : Type} (m : Machine S) : Machine S :=
  let m0 := { m with isWorkLoopScheduled := false }
  match selectLane m0.lanes with
  | none => m0
  | some l =>
      let m1 := { m0 with lanes := m0.lanes.set l false }
      let s := drainQueue m1.committed m1.queue
      let m2 := { m1 with
        committed := s
        queue := []
        commitLog := m1.commitLog ++ [(l, s)] }
      if (selectLane m2.lanes).isSome && !m2.isWorkLoopScheduled then
        { m2 with isWorkLoopScheduled := true, tasks := m2.tasks + 1 }
      else m2

/-- Dequeue one scheduler task (FIFO; every queued task is `workLoop`) and
run it; a no-op when the scheduler queue is empty. -/
def runTaskM {S : Type} (m : Machine S) : Machine S :=
  match m.tasks with
  | 0 => m
  | n + 1 => workLoopM { m with tasks := n }

/-! ## Cooperative time-sliced scheduler (scheduler.ts) -/

/-- A queued scheduler task: an identity and the time `cb()` consumes, in
the same units as `performance.now()`. -/
structure Task where
  id : Nat
  dur : Nat
deriving DecidableEq, Repr

/-- `SLICE_MS = 5`: the flush time budget. -/
def SLICE_MS : Nat := 5

/-- The `while (cb)` loop of the `onmessage` flush handler (scheduler.ts
lines 8-15): dequeue from the front, run the task to completion, and only
then compare elapsed time against the budget, breaking when it is
exceeded.  `elapsed` is the time consumed since `start`; returns the
executed tasks in order and the remaining queue. -/
def flushLoop (elapsed : Nat) : List Task → List Task × List Task
  | [] => ([], [])
  | t :: rest =>
      let elapsed1 := elapsed + t.dur
      if SLICE_MS < elapsed1 then ([t], rest)
      else
        let r := flushLoop elapsed1 rest
        (t :: r.1, r.2)

/-- Scheduler state: the FIFO task queue, the `flushing` flag, and the
number of `postMessage(null)` calls issued (each one triggers one future
`onmessage` flush). -/
structure Sched where
  q : List Task
  flushing : Bool
  messagesPosted : Nat
deriving DecidableEq, Repr

/-- `flush()` (scheduler.ts lines 23-28): request an `onmessage` delivery
unless one is already pending. -/
def flushS (s : Sched) : Sched :=
  if s.flushing then s
  else { s with flushing := true, messagesPosted := s.messagesPosted + 1 }

/-- `schedule(cb)` (lines 30-33): append the task and request a flush when
none is pending. -/
def scheduleS (t : Task) (s : Sched) : Sched :=
  let s1 := { s with q := s.q ++ [t] }
  if s1.flushing then s1 else flushS s1

/-- The `onmessage` handler (lines 7-21): clear `flushing`, run queued
tasks back-to-back under the time budget, and request another flush when
tasks remain.  Returns the post-flush state and the tasks executed, in
execution order. -/
def onmessageS (s : Sched) : Sched × List Task :=
  let s0 := { s with flushing := false }
  let r := flushLoop 0 s0.q
  let s1 := { s0 with q := r.2 }
  (if r.2.isEmpty then s1 else flushS s1, r.1)

/-! ## Derived notions used by the statements -/

/-- A work-in-progress tree none of whose fibers carries an effect tag. -/
def noTags : FiberT → Bool
  | .nil => true
  | .mk _ tag child sibling => tag.isNone && noTags child && noTags sibling

/-- The handle `commitDeletion` ends up removing: the fiber's own handle,
or — recursing through handle-less component fibers — the first handle
found down the `child` chain. -/
def firstDom : FiberT → Option Nat
  | .nil => none
  | .mk dom _ child _ =>
      match dom with
      | some d => some d
      | none => firstDom child

/-- The events one effect record produces when flushed: its pending
cleanup (when present) first, then its callback. -/
def effectOwnEvents (h : EffectRec) : List DomOp :=
  (match h.pendingCleanup with
    | some c => [DomOp.runCleanup c]
    | none => []) ++ [DomOp.runCallback h.cbId]

/-- Total time a list of tasks consumes. -/
def durSum (ts : List Task) : Nat :=
  (ts.map Task.dur).sum

/-- Old child fibers of scenario C1: a keyed list of two `li` host fibers
with keys `"a"`, `"b"` and handles 1, 2. -/
def c1olds : List OldFiber :=
  [{ type := EType.host "li", key := JKey.str "a", attrs := [], dom := some 1 },
    { type := EType.host "li", key := JKey.str "b", attrs := [], dom := some 2 }]

/-- New elements of scenario C1: the same two keyed `li` items re-rendered
in swapped order — a permutation in which every item keeps its own key and
both items stand at new positions. -/
def c1elsRaw : List VNode :=
  [VNode.mk (EType.host "li") (JKey.str "b") [] [],
    VNode.mk (EType.host "li") (JKey.str "a") [] []]

/-- The scenario C1 element list as `reconcileChildren` receives it. -/
def c1els : List (Option VNode) :=
  c1elsRaw.map some

/-- A concrete engine state for the work-loop witnesses: a Transition and
an Idle root pending, one work-loop task queued. -/
def c9m : Machine Nat :=
  { committed := 0
    queue := [Act.value 5]
    lanes := { imm := false, trans := true, idl := true }
    isWorkLoopScheduled := true
    tasks := 1
    commitLog := [] }

/-- A concrete scheduler state for the C10 witness: three queued tasks of
durations 1, 1 and 9 time units, a flush pending. -/
def c10s : Sched :=
  { q := [{ id := 1, dur := 1 }, { id := 2, dur := 1 }, { id := 3, dur := 9 }]
    flushing := true
    messagesPosted := 0 }

/-! ## Helper lemmas -/

/-- Coercion always yields an object-typed child: objects pass through and
everything else becomes a text node (which is a node object). -/
theorem typeofIsObject_coerceChild (c : JChild) :
    typeofIsObject (coerceChild c) = true := by
  cases c <;> simp [coerceChild, typeofIsObject, createTextElement]

/-- A dependency list never differs from itself element-wise. -/
theorem someDepDiffers_self (ds : List JVal) : someDepDiffers ds ds = false := by
  simp [someDepDiffers, objectIs]

/-- Reading a registry slot just stored reads back the stored root. -/
theorem LaneRoots.get_set (r : LaneRoots) (l : Lane) :
    (r.set l true).get l = true := by
  cases l <;> rfl

/-- Storing into a slot that already holds a root leaves the registry
unchanged (merge keeps occupancy). -/
theorem LaneRoots.set_get_self (r : LaneRoots) (l : Lane) (h : r.get l = true) :
    r.set l true = r := by
  cases l <;> (cases r; simp_all [LaneRoots.get, LaneRoots.set])

/-- Re-rendering with identical props never flags an update. -/
theorem needsUpdate_self (attrs : List (String × JVal)) :
    needsUpdate attrs attrs = false := by
  simp [needsUpdate]

/-- A tree without effect tags commits no adapter mutation at all. -/
theorem commitWork_of_noTags :
    ∀ (dp : Option Nat) (t : FiberT), noTags t = true → commitWork dp t = [] := by
  intro dp t
  induction t generalizing dp with
  | nil => intro _; rfl
  | mk dom tag child sibling ihc ihs =>
      intro ht
      simp only [noTags, Bool.and_eq_true, Option.isNone_iff_eq_none] at ht
      obtain ⟨⟨htag, hc⟩, hs⟩ := ht
      subst htag
      simp [commitWork, ihc _ hc, ihs _ hs]

/-- The effect-flush loop runs the queued records in FIFO enqueue order,
each contributing its pending cleanup (when present) and then its
callback, and stores each returned cleanup back into the record. -/
theorem flushEffectsGo_spec (q : List EffectRec) :
    (flushEffectsGo q).1 = (q.map effectOwnEvents).flatten ∧
    (flushEffectsGo q).2 =
      q.map fun h => { h with pendingCleanup := h.returnedCleanup } := by
  induction q with
  | nil => exact ⟨rfl, rfl⟩
  | cons h t ih =>
      obtain ⟨ih1, ih2⟩ := ih
      constructor
      · simp [flushEffectsGo, effectOwnEvents, ih1]
      · simp [flushEffectsGo, ih2]

/-- `commitDeletion` removes exactly the first handle found down the
`child` chain (the fiber's own handle, or a descendant's when the fiber is
a handle-less component). -/
theorem commitDeletionOps_firstDom (p : Nat) : ∀ f : FiberT,
    commitDeletionOps p f =
      match firstDom f with
      | some d => [DomOp.removeChild p d]
      | none => [] := by
  intro f
  induction f with
  | nil => rfl
  | mk dom tag child sibling ihc ihs =>
      cases dom with
      | some d => rfl
      | none => simp [commitDeletionOps, firstDom, ihc]

/-- The flush loop executes a prefix of the queue: every executed task ran
whole, in FIFO order, and the untouched tail is returned. -/
theorem flushLoop_partition : ∀ (q : List Task) (elapsed : Nat),
    (flushLoop elapsed q).1 ++ (flushLoop elapsed q).2 = q := by
  intro q
  induction q with
  | nil => intro e; rfl
  | cons t rest ih =>
      intro e
      by_cases hc : SLICE_MS < e + t.dur
      · simp [flushLoop, hc]
      · simp [flushLoop, hc, ih (e + t.dur)]

/-- The first queued task is always the first executed. -/
theorem flushLoop_head (elapsed : Nat) (t : Task) (rest : List Task) :
    (flushLoop elapsed (t :: rest)).1.head? = some t := by
  by_cases hc : SLICE_MS < elapsed + t.dur <;> simp [flushLoop, hc]

/-- Every executed task except possibly the last one finished within the
budget: the time-budget comparison happens only after a task completes, so
the loop continued exactly while the cumulative elapsed time stayed within
the slice. -/
theorem flushLoop_budget : ∀ (q : List Task) (elapsed k : Nat),
    k + 1 < (flushLoop elapsed q).1.length →
    elapsed + durSum ((flushLoop elapsed q).1.take (k + 1)) ≤ SLICE_MS := by
  intro q
  induction q with
  | nil =>
      intro e k hk
      simp [flushLoop] at hk
  | cons t rest ih =>
      intro e k hk
      by_cases hc : SLICE_MS < e + t.dur
      · simp [flushLoop, hc] at hk
      · simp only [flushLoop, if_neg hc] at hk ⊢
        cases k with
        | zero =>
            simp only [List.length_cons] at hk
            simp [durSum]
            omega
        | succ k2 =>
            have hlen : k2 + 1 < (flushLoop (e + t.dur) rest).1.length := by
              simpa using hk
            have hrec := ih (e + t.dur) k2 hlen
            simp only [List.take_succ_cons]
            have hdur : durSum (t :: (flushLoop (e + t.dur) rest).1.take (k2 + 1)) =
                t.dur + durSum ((flushLoop (e + t.dur) rest).1.take (k2 + 1)) := by
              simp [durSum]
            omega

/-- The post-flush scheduler state: executed and remaining tasks come from
the budgeted loop over the queue, and a follow-up flush is requested
exactly when tasks remain. -/
theorem onmessageS_spec (s : Sched) :
    (onmessageS s).2 = (flushLoop 0 s.q).1 ∧
    (onmessageS s).1.q = (flushLoop 0 s.q).2 ∧
    ((flushLoop 0 s.q).2 ≠ [] →
      (onmessageS s).1.flushing = true ∧
      (onmessageS s).1.messagesPosted = s.messagesPosted + 1) := by
  cases he : (flushLoop 0 s.q).2 with
  | nil => simp [onmessageS, flushS, he]
  | cons x xs => simp [onmessageS, flushS, he]

/-- Once a work-loop task is scheduled and the lane occupied, further
`setState` calls before the work loop runs only append their actions to
the hook queue FIFO: no second task, no second root. -/
theorem setState_foldl_after_first {S : Type} (lane : Lane) (acts : List (Act S)) :
    ∀ m : Machine S, m.isWorkLoopScheduled = true → m.lanes.get lane = true →
      acts.foldl (fun st a => setStateM lane a st) m = { m with queue := m.queue ++ acts } := by
  induction acts with
  | nil => intro m h1 h2; simp
  | cons a rest ih =>
      intro m h1 h2
      have hstep : setStateM lane a m = { m with queue := m.queue ++ [a] } := by
        simp [setStateM, scheduleLaneM, h1, LaneRoots.set_get_self m.lanes lane h2]
      rw [List.foldl_cons, hstep,
        ih { m with queue := m.queue ++ [a] } h1 h2]
      simp

/-! ## C7: child coercion in createElement -/

/-- C7 counterexample: `createElement` passes a `null` child through
uncoerced, because `typeof null === "object"`; the children sequence then
contains an entry that is not a node object (and not a text node), refuting
the claim that every non-node child — including null — is coerced to a
text node. -/
theorem C7_null_child_uncoerced :
    createElementChildren [JChild.jnull] = [JChild.jnull] ∧
    isNodeObject JChild.jnull = false := by
  exact ⟨rfl, rfl⟩

/-- C7 (amended): `createElement` flattens child lists one level and
coerces every child whose JavaScript `typeof` is not `"object"` (strings,
numbers, booleans, `undefined`) into a text node; children whose `typeof`
is `"object"` — recognized nodes, but also `null` and arrays nested two or
more levels deep — pass through unchanged.  Hence every resulting entry is
object-typed, but the sequence may still contain `null` entries that are
not node objects. -/
theorem C7_children_coercion :
    (∀ (cs : List JChild) (x : JChild),
        x ∈ createElementChildren cs → typeofIsObject x = true) ∧
    (∀ c : JChild, typeofIsObject c = false →
        coerceChild c = JChild.node (createTextElement (jsString c))) ∧
    (∀ (cs : List JChild) (c : JChild),
        c ∈ flatOne cs → typeofIsObject c = true → c ∈ createElementChildren cs) := by
  refine ⟨?_, ?_, ?_⟩
  · intro cs x hx
    rcases List.mem_map.1 hx with ⟨c, _, rfl⟩
    exact typeofIsObject_coerceChild c
  · intro c h
    simp [coerceChild, h]
  · intro cs c hc h
    refine List.mem_map.2 ⟨c, hc, ?_⟩
    simp [coerceChild, h]

/-- C7 witness: a number child is coerced to a text node holding its
string form. -/
theorem C7_children_coercion_witness :
    coerceChild (JChild.num 3) = JChild.node (createTextElement (jsString (JChild.num 3))) :=
  C7_children_coercion.2.1 (JChild.num 3) rfl

/-! ## C2: useEffect dependency comparison -/

/-- C2 counterexample: both dependency lists present with differing lengths
(new `[v1]` against previous `[v1, v2]`), yet the effect is NOT considered
changed — `deps.some` only scans the new list's indices and never compares
lengths — so it is not queued for post-commit execution, refuting the
differing-length clause of the claim. -/
theorem C2_shorter_deps_not_changed :
    depsChanged (some [JVal.val 1]) (some [JVal.val 1, JVal.val 2]) = false ∧
    (useEffectStep
        (some { deps := some [JVal.val 1, JVal.val 2], cbId := 5, cleanup := some 9 })
        (some [JVal.val 1]) 7 []).2 = [] := by
  exact ⟨by decide, by decide⟩

/-- C2 (amended): with both dependency lists present, the effect counts as
changed exactly when some index of the NEW list differs (by `Object.is`)
from the previous list's entry at that index, out-of-range reads yielding
`undefined`.  So a longer new list whose extra entry is defined is changed
and queued, but a shorter new list that agrees pointwise with the previous
list's prefix is NOT considered changed; and whenever the new list is
element-wise identical to the previous pass's list, the effect is not
queued, so neither its callback nor its cleanup runs in that pass. -/
theorem C2_deps_comparison :
    (∀ ds : List JVal, depsChanged (some ds) (some ds) = false) ∧
    (∀ (o : EffectSlot) (ds : List JVal) (cbId : Nat) (p : List EffectSlot),
        o.deps = some ds → (useEffectStep (some o) (some ds) cbId p).2 = p) ∧
    (∀ (ds os : List JVal) (i : Nat), os.length ≤ i → i < ds.length →
        getUndef ds i ≠ JVal.undef → depsChanged (some ds) (some os) = true) := by
  refine ⟨?_, ?_, ?_⟩
  · intro ds
    simp [depsChanged, someDepDiffers_self]
  · intro o ds cbId p ho
    simp [useEffectStep, ho, depsChanged, someDepDiffers_self]
  · intro ds os i hos hds hne
    have hosu : getUndef os i = JVal.undef := by
      simp [getUndef, List.get?_eq_getElem?, List.getElem?_eq_none hos]
    simp only [depsChanged, someDepDiffers, List.any_eq_true, List.mem_range]
    refine ⟨i, hds, ?_⟩
    simp [objectIs, hosu, hne]

/-- C2 witness: a new list `[v1, v2]` against a previous `[v1]` is changed
(extra defined entry), and a new list identical to the previous one leaves
the pending-effects queue untouched. -/
theorem C2_deps_comparison_witness :
    depsChanged (some [JVal.val 1, JVal.val 2]) (some [JVal.val 1]) = true ∧
    (useEffectStep
        (some { deps := some [JVal.val 1], cbId := 4, cleanup := none })
        (some [JVal.val 1]) 6 []).2 = [] := by
  refine ⟨?_, ?_⟩
  · exact C2_deps_comparison.2.2 [JVal.val 1, JVal.val 2] [JVal.val 1] 1
      (by decide) (by decide) (by decide)
  · exact C2_deps_comparison.2.1 _ [JVal.val 1] 6 [] rfl

/-! ## C8: hooks outside an active component invocation -/

/-- C8: every call to `useState` or `useEffect` made while no component
invocation is active (the hook context fiber is absent) returns the thrown
error immediately — before any state mutation or queueing, since the error
result carries no updated slot or pending-effects queue — and the error
propagates uncaught through any continuation the core binds after the
call. -/
theorem C8_hooks_outside_invocation_throw :
    (∀ (S : Type) (init : S),
        useStateCall (S := S) none init = Except.error "Hooks outside component") ∧
    (∀ (deps : Option (List JVal)) (cbId : Nat) (p : List EffectSlot),
        useEffectCall none deps cbId p = Except.error "useEffect outside component") ∧
    (∀ (S T : Type) (init : S) (k : StateSlot S × S → Except String T),
        useStateCall none init >>= k = Except.error "Hooks outside component") ∧
    (∀ (T : Type) (deps : Option (List JVal)) (cbId : Nat) (p : List EffectSlot)
        (k : EffectSlot × List EffectSlot → Except String T),
        useEffectCall none deps cbId p >>= k =
          Except.error "useEffect outside component") :=
  ⟨fun _ _ => rfl, fun _ _ _ => rfl, fun _ _ _ _ => rfl, fun _ _ _ _ _ => rfl⟩

/-! ## C1: positional reconciliation of a keyed permutation -/

/-- C1 counterexample: re-rendering the keyed list with handles `[a ↦ 1,
b ↦ 2]` as the permutation `[b, a]` (same host tag `li`, every item
keeping its own key, both items at new positions) tags BOTH slots
`PLACEMENT` with a fresh null handle and queues BOTH old fibers as
deletions — no slot is tagged `UPDATE` and no old handle is carried over,
because `sameType` also compares keys, which differ positionally after the
move.  This refutes the claim that every slot of the permuted list is
tagged Update and that no Placement or Deletion is produced. -/
theorem C1_keyed_permutation_counterexample :
    ((reconcileChildren c1els c1olds).1.map NewFiber.effectTag
        = [some ETag.placement, some ETag.placement]) ∧
    ((reconcileChildren c1els c1olds).1.map NewFiber.dom = [none, none]) ∧
    ((reconcileChildren c1els c1olds).2.map OldFiber.dom = [some 1, some 2]) ∧
    (c1els.map (fun e => e.map VNode.type)
        = [some (EType.host "li"), some (EType.host "li")]) ∧
    (c1els.map (fun e => e.map VNode.key)
        = [some (JKey.str "b"), some (JKey.str "a")]) ∧
    (c1olds.map OldFiber.key = [JKey.str "a", JKey.str "b"]) := by
  refine ⟨rfl, rfl, rfl, rfl, rfl, rfl⟩

/-- Positional characterization of `reconcileChildren` on equal-length
child lists: each slot is compared only to the old fiber at the same
index; a slot whose type and key both match becomes `updateFiber`
(old handle reused), any other slot becomes a `PLACEMENT` fiber while the
positional old fiber is queued for deletion, in slot order. -/
theorem reconcileChildren_positional (els : List VNode) :
    ∀ olds : List OldFiber, els.length = olds.length →
      ((reconcileChildren (els.map some) olds).1 =
        (els.zip olds).map fun p =>
          if sameTypeB p.2 p.1 then updateFiber p.2 p.1 else placementFiber p.1) ∧
      ((reconcileChildren (els.map some) olds).2 =
        ((els.zip olds).filter fun p => !sameTypeB p.2 p.1).map Prod.snd) := by
  induction els with
  | nil =>
      intro olds h
      cases olds with
      | nil => exact ⟨rfl, rfl⟩
      | cons o os => simp at h
  | cons e es ih =>
      intro olds h
      cases olds with
      | nil => simp at h
      | cons o os =>
          have h2 : es.length = os.length := by simpa using h
          obtain ⟨ih1, ih2⟩ := ih os h2
          cases hs : sameTypeB o e with
          | true => simp [reconcileChildren, hs, ih1, ih2]
          | false => simp [reconcileChildren, hs, ih1, ih2]

/-- C1 (amended): `reconcileChildren` matches each new child against the
old child at the same positional index, but a slot is reused only when the
type AND the key both match there.  On a permutation of a keyed list the
moved slots have positionally mismatched keys, so each such slot is tagged
Placement carrying a fresh null handle while the displaced old fiber is
tagged Deletion; Update tags carrying the old handle arise only at slots
whose type and key coincide positionally. -/
theorem C1_positional_keyed_matching (els : List VNode) (olds : List OldFiber)
    (h : els.length = olds.length) :
    ((reconcileChildren (els.map some) olds).1 =
      (els.zip olds).map fun p =>
        if sameTypeB p.2 p.1 then updateFiber p.2 p.1 else placementFiber p.1) ∧
    ((reconcileChildren (els.map some) olds).2 =
      ((els.zip olds).filter fun p => !sameTypeB p.2 p.1).map Prod.snd) ∧
    (∀ (e : VNode) (o : OldFiber),
      (sameTypeB o e = true ↔ e.type = o.type ∧ e.key = o.key) ∧
      (updateFiber o e).dom = o.dom ∧
      ((updateFiber o e).effectTag = some ETag.update ∨
        (updateFiber o e).effectTag = none) ∧
      (placementFiber e).effectTag = some ETag.placement ∧
      (placementFiber e).dom = none) := by
  obtain ⟨h1, h2⟩ := reconcileChildren_positional els olds h
  refine ⟨h1, h2, fun e o => ⟨?_, rfl, ?_, rfl, rfl⟩⟩
  · simp [sameTypeB]
  · by_cases hu : needsUpdate o.attrs e.attrs
    · exact Or.inl (by simp [updateFiber, hu])
    · exact Or.inr (by simp [updateFiber, hu])

/-- C1 witness: the amended characterization evaluated on the concrete
swapped keyed list of the counterexample scenario. -/
theorem C1_positional_keyed_matching_witness :
    ((reconcileChildren (c1elsRaw.map some) c1olds).1 =
      (c1elsRaw.zip c1olds).map fun p =>
        if sameTypeB p.2 p.1 then updateFiber p.2 p.1 else placementFiber p.1) ∧
    ((reconcileChildren (c1elsRaw.map some) c1olds).2 =
      ((c1elsRaw.zip c1olds).filter fun p => !sameTypeB p.2 p.1).map Prod.snd) ∧
    (∀ (e : VNode) (o : OldFiber),
      (sameTypeB o e = true ↔ e.type = o.type ∧ e.key = o.key) ∧
      (updateFiber o e).dom = o.dom ∧
      ((updateFiber o e).effectTag = some ETag.update ∨
        (updateFiber o e).effectTag = none) ∧
      (placementFiber e).effectTag = some ETag.placement ∧
      (placementFiber e).dom = none) :=
  C1_positional_keyed_matching c1elsRaw c1olds rfl

/-! ## C5: lane priority -/

/-- C5: `workLoop` always adopts the highest-priority non-empty lane in
the total order Immediate > Transition > Idle; in particular, submitting a
Transition root and then an Immediate root before the work-loop task runs
makes the Immediate root commit first and the Transition root commit in a
later work-loop pass. -/
theorem C5_lane_priority_selection :
    (∀ (r : LaneRoots) (l : Lane), selectLane r = some l →
        r.get l = true ∧ ∀ l2 : Lane, lanePrio l2 < lanePrio l → r.get l2 = false) ∧
    ((runTaskM (runTaskM (scheduleLaneM Lane.immediate
        (scheduleLaneM Lane.transition (initMachine (0 : Nat)))))).commitLog =
      [(Lane.immediate, 0), (Lane.transition, 0)]) := by
  exact ⟨by decide, rfl⟩

/-- C5 witness: with both the Immediate and the Transition slots occupied,
selection picks Immediate and every strictly higher-priority lane (none)
is empty. -/
theorem C5_lane_priority_selection_witness :
    (LaneRoots.mk true true false).get Lane.immediate = true ∧
    ∀ l2 : Lane, lanePrio l2 < lanePrio Lane.immediate →
      (LaneRoots.mk true true false).get l2 = false :=
  C5_lane_priority_selection.1 (LaneRoots.mk true true false) Lane.immediate rfl

/-! ## C9: one lane per work-loop invocation -/

/-- C9: a `workLoop` invocation adopts and commits the pending root of at
most one lane — the highest-priority non-empty one, whose registry slot is
cleared — appending exactly one entry to the commit log; if another lane
still holds pending work afterwards it schedules one more work-loop task
instead of processing that lane now, and with no pending work it returns
having only cleared the scheduling flag, touching neither the tree nor the
commit log. -/
theorem C9_workLoop_adopts_at_most_one_lane {S : Type} (m : Machine S) :
    (selectLane m.lanes = none → workLoopM m = { m with isWorkLoopScheduled := false }) ∧
    (∀ l : Lane, selectLane m.lanes = some l →
      (workLoopM m).commitLog = m.commitLog ++ [(l, drainQueue m.committed m.queue)] ∧
      (workLoopM m).committed = drainQueue m.committed m.queue ∧
      (workLoopM m).queue = [] ∧
      (workLoopM m).lanes = m.lanes.set l false ∧
      ((selectLane (m.lanes.set l false)).isSome = true →
          (workLoopM m).tasks = m.tasks + 1 ∧
          (workLoopM m).isWorkLoopScheduled = true) ∧
      ((selectLane (m.lanes.set l false)).isSome = false →
          (workLoopM m).tasks = m.tasks ∧
          (workLoopM m).isWorkLoopScheduled = false)) := by
  constructor
  · intro h
    simp [workLoopM, h]
  · intro l h
    cases hp : (selectLane (m.lanes.set l false)).isSome <;>
      simp [workLoopM, h, hp]

/-- C9 witness: on the concrete state with Transition and Idle pending,
one invocation commits only the Transition root, clears its slot, and
schedules one further task for the still-pending Idle root. -/
theorem C9_workLoop_adopts_at_most_one_lane_witness :
    (workLoopM c9m).commitLog =
      c9m.commitLog ++ [(Lane.transition, drainQueue c9m.committed c9m.queue)] ∧
    (workLoopM c9m).lanes = c9m.lanes.set Lane.transition false ∧
    (workLoopM c9m).tasks = c9m.tasks + 1 ∧
    (workLoopM c9m).isWorkLoopScheduled = true := by
  obtain ⟨h1, _, _, h4, h5, _⟩ :=
    (C9_workLoop_adopts_at_most_one_lane c9m).2 Lane.transition rfl
  exact ⟨h1, h4, (h5 rfl).1, (h5 rfl).2⟩

/-! ## C3: batched state updates under one lane -/

/-- C3: for a nonempty sequence of setter calls on the same state hook
submitted under the same lane before the next work-loop run, exactly one
work-loop task is scheduled; running it commits once, and the committed
state is the queued actions folded over the prior state in submission
(FIFO) order, each applied exactly once, leaving the queue empty and no
lane pending. -/
theorem C3_batched_state_updates {S : Type} (s0 : S) (lane : Lane)
    (acts : List (Act S)) (h : acts ≠ []) :
    (acts.foldl (fun st a => setStateM lane a st) (initMachine s0)).tasks = 1 ∧
    (acts.foldl (fun st a => setStateM lane a st) (initMachine s0)).isWorkLoopScheduled = true ∧
    (acts.foldl (fun st a => setStateM lane a st) (initMachine s0)).queue = acts ∧
    (runTaskM (acts.foldl (fun st a => setStateM lane a st) (initMachine s0))).commitLog =
      [(lane, acts.foldl applyAct s0)] ∧
    (runTaskM (acts.foldl (fun st a => setStateM lane a st) (initMachine s0))).committed =
      acts.foldl applyAct s0 ∧
    (runTaskM (acts.foldl (fun st a => setStateM lane a st) (initMachine s0))).queue = [] ∧
    (runTaskM (acts.foldl (fun st a => setStateM lane a st) (initMachine s0))).tasks = 0 ∧
    selectLane (runTaskM (acts.foldl (fun st a => setStateM lane a st) (initMachine s0))).lanes = none := by
  obtain ⟨a, rest, rfl⟩ := List.exists_cons_of_ne_nil h
  have hsub : (a :: rest).foldl (fun st acc => setStateM lane acc st) (initMachine s0) =
      { committed := s0, queue := a :: rest,
        lanes := (LaneRoots.mk false false false).set lane true,
        isWorkLoopScheduled := true, tasks := 1, commitLog := [] } := by
    have h1 : setStateM lane a (initMachine s0) =
        { committed := s0, queue := [a],
          lanes := (LaneRoots.mk false false false).set lane true,
          isWorkLoopScheduled := true, tasks := 1, commitLog := [] } := by
      simp [setStateM, scheduleLaneM, initMachine]
    rw [List.foldl_cons, h1,
      setState_foldl_after_first lane rest _ rfl (LaneRoots.get_set _ _)]
    simp
  refine ⟨?_, ?_, ?_, ?_, ?_, ?_, ?_, ?_⟩ <;>
    rw [hsub] <;> cases lane <;>
      simp [runTaskM, workLoopM, selectLane, LaneRoots.set, drainQueue]

/-- C3 witness: three functional increments queued under the Immediate lane
from committed state 0 schedule a single work-loop task whose run commits
the folded value once. -/
theorem C3_batched_state_updates_witness :
    ([Act.fn (fun c => c + 1), Act.fn (fun c => c + 1), Act.fn (fun c => c + 1)].foldl
        (fun st a => setStateM Lane.immediate a st) (initMachine (0 : Nat))).tasks = 1 ∧
    ([Act.fn (fun c => c + 1), Act.fn (fun c => c + 1), Act.fn (fun c => c + 1)].foldl
        (fun st a => setStateM Lane.immediate a st) (initMachine (0 : Nat))).isWorkLoopScheduled = true ∧
    ([Act.fn (fun c => c + 1), Act.fn (fun c => c + 1), Act.fn (fun c => c + 1)].foldl
        (fun st a => setStateM Lane.immediate a st) (initMachine (0 : Nat))).queue =
      [Act.fn (fun c => c + 1), Act.fn (fun c => c + 1), Act.fn (fun c => c + 1)] ∧
    (runTaskM ([Act.fn (fun c => c + 1), Act.fn (fun c => c + 1), Act.fn (fun c => c + 1)].foldl
        (fun st a => setStateM Lane.immediate a st) (initMachine (0 : Nat)))).commitLog =
      [(Lane.immediate, [Act.fn (fun c => c + 1), Act.fn (fun c => c + 1),
          Act.fn (fun c => c + 1)].foldl applyAct 0)] ∧
    (runTaskM ([Act.fn (fun c => c + 1), Act.fn (fun c => c + 1), Act.fn (fun c => c + 1)].foldl
        (fun st a => setStateM Lane.immediate a st) (initMachine (0 : Nat)))).committed =
      [Act.fn (fun c => c + 1), Act.fn (fun c => c + 1), Act.fn (fun c => c + 1)].foldl applyAct 0 ∧
    (runTaskM ([Act.fn (fun c => c + 1), Act.fn (fun c => c + 1), Act.fn (fun c => c + 1)].foldl
        (fun st a => setStateM Lane.immediate a st) (initMachine (0 : Nat)))).queue = [] ∧
    (runTaskM ([Act.fn (fun c => c + 1), Act.fn (fun c => c + 1), Act.fn (fun c => c + 1)].foldl
        (fun st a => setStateM Lane.immediate a st) (initMachine (0 : Nat)))).tasks = 0 ∧
    selectLane (runTaskM ([Act.fn (fun c => c + 1), Act.fn (fun c => c + 1),
        Act.fn (fun c => c + 1)].foldl
        (fun st a => setStateM Lane.immediate a st) (initMachine (0 : Nat)))).lanes = none :=
  C3_batched_state_updates 0 Lane.immediate
    [Act.fn (fun c => c + 1), Act.fn (fun c => c + 1), Act.fn (fun c => c + 1)] (by simp)

/-! ## C4: idempotent re-render -/

/-- C4: re-running a pass in which nothing changed — every new child
element has the same type, key and (identity-equal) props as the committed
child fiber at its index — produces no Update, Placement or Deletion tag
and queues no deletion, every handle being carried over; and committing a
tag-free tree with no queued deletions and no pending effects performs
zero adapter/DOM mutation calls. -/
theorem C4_unchanged_pass_is_idempotent (olds : List OldFiber) (els : List (Option VNode))
    (h : List.Forall₂ (fun eo o => ∃ e : VNode,
        eo = some e ∧ e.type = o.type ∧ e.key = o.key ∧ e.attrs = o.attrs) els olds) :
    ((reconcileChildren els olds).1.map NewFiber.effectTag =
        List.replicate olds.length none) ∧
    ((reconcileChildren els olds).2 = []) ∧
    ((reconcileChildren els olds).1.map NewFiber.dom = olds.map OldFiber.dom) ∧
    (∀ (dp : Option Nat) (t : FiberT), noTags t = true → commitWork dp t = []) ∧
    (∀ st : CommitState, st.deletions = [] → st.pendingEffects = [] →
        noTags st.wipChild = true → (commitRoot st).1 = []) := by
  have hcore : ((reconcileChildren els olds).1.map NewFiber.effectTag =
        List.replicate olds.length none) ∧
      ((reconcileChildren els olds).2 = []) ∧
      ((reconcileChildren els olds).1.map NewFiber.dom = olds.map OldFiber.dom) := by
    induction els generalizing olds with
    | nil =>
        cases h
        exact ⟨rfl, rfl, rfl⟩
    | cons eo es ih =>
        cases h with
        | cons hpair hrest =>
            rename_i o os
            obtain ⟨e, rfl, ht, hk, ha⟩ := hpair
            obtain ⟨ih1, ih2, ih3⟩ := ih os hrest
            have hs : sameTypeB o e = true := by simp [sameTypeB, ht, hk]
            have hnu : needsUpdate o.attrs e.attrs = false := by
              rw [ha]
              exact needsUpdate_self o.attrs
            refine ⟨?_, ?_, ?_⟩ <;>
              simp [reconcileChildren, hs, updateFiber, hnu, ih1, ih2, ih3,
                List.replicate_succ]
  refine ⟨hcore.1, hcore.2.1, hcore.2.2, commitWork_of_noTags, ?_⟩
  intro st h1 h2 h3
  simp [commitRoot, h1, h2, commitWork_of_noTags st.wipDom st.wipChild h3, flushEffectsGo]

/-- C4 witness: one unchanged `div` child slot yields no tag, no deletion
and the carried-over handle, and a tag-free one-node tree commits no
mutation. -/
theorem C4_unchanged_pass_is_idempotent_witness :
    ((reconcileChildren
        [some (VNode.mk (EType.host "div") JKey.null [("id", JVal.val 3)] [])]
        [{ type := EType.host "div", key := JKey.null,
            attrs := [("id", JVal.val 3)], dom := some 1 }]).1.map NewFiber.effectTag
        = [none]) ∧
    ((reconcileChildren
        [some (VNode.mk (EType.host "div") JKey.null [("id", JVal.val 3)] [])]
        [{ type := EType.host "div", key := JKey.null,
            attrs := [("id", JVal.val 3)], dom := some 1 }]).2 = []) ∧
    ((reconcileChildren
        [some (VNode.mk (EType.host "div") JKey.null [("id", JVal.val 3)] [])]
        [{ type := EType.host "div", key := JKey.null,
            attrs := [("id", JVal.val 3)], dom := some 1 }]).1.map NewFiber.dom
        = [some 1]) ∧
    commitWork (some 7) (FiberT.mk (some 2) none FiberT.nil FiberT.nil) = [] := by
  obtain ⟨h1, h2, h3, h4, _⟩ := C4_unchanged_pass_is_idempotent
    [{ type := EType.host "div", key := JKey.null,
        attrs := [("id", JVal.val 3)], dom := some 1 }]
    [some (VNode.mk (EType.host "div") JKey.null [("id", JVal.val 3)] [])]
    (List.Forall₂.cons ⟨VNode.mk (EType.host "div") JKey.null [("id", JVal.val 3)] [],
        rfl, rfl, rfl, rfl⟩ List.Forall₂.nil)
  exact ⟨h1, h2, h3, h4 (some 7) (FiberT.mk (some 2) none FiberT.nil FiberT.nil) rfl⟩

/-! ## C6: commit phase order -/

/-- C6: `commitRoot` proceeds in this fixed order — first every queued
Deletion fiber is committed, removing from its nearest DOM ancestor the
first handle found down its child chain (its own, or a descendant's when
it is a handle-less component fiber); then the work-in-progress tree is
walked applying Placement and Update tags; then the queued effects run in
FIFO enqueue order, each one its pending cleanup before its callback, the
returned cleanup being stored; and finally the work-in-progress root
becomes the current root in one whole swap, with the deletion queue and
effect queue cleared, so no partially committed tree is observable as
current. -/
theorem C6_commitRoot_phase_order (st : CommitState) :
    ((commitRoot st).1 =
      (st.deletions.map fun pf => commitWork pf.1 pf.2).flatten ++
        commitWork st.wipDom st.wipChild ++
        (st.pendingEffects.map effectOwnEvents).flatten) ∧
    ((flushEffectsGo st.pendingEffects).2 =
      st.pendingEffects.map fun h => { h with pendingCleanup := h.returnedCleanup }) ∧
    (∀ (p : Nat) (f : FiberT), commitDeletionOps p f =
      match firstDom f with
      | some d => [DomOp.removeChild p d]
      | none => []) ∧
    ((commitRoot st).2.currentRoot = some (st.wipDom, st.wipChild) ∧
      (commitRoot st).2.deletions = [] ∧
      (commitRoot st).2.pendingEffects = []) := by
  refine ⟨?_, (flushEffectsGo_spec st.pendingEffects).2,
    commitDeletionOps_firstDom, rfl, rfl, rfl⟩
  simp [commitRoot, (flushEffectsGo_spec st.pendingEffects).1]

/-! ## C10: time-sliced scheduler flush -/

/-- C10: a scheduler flush over a non-empty queue always executes at least
one task, starting with the queue's head (FIFO); executed tasks are a
whole prefix of the queue, each run to completion, never preempted; the
budget comparison happens only after a task completes, so every executed
task but possibly the last finished with the cumulative elapsed time still
within the slice; and when tasks remain past the budget, another flush is
requested via one more posted message. -/
theorem C10_scheduler_flush_guarantees (s : Sched) (h : s.q ≠ []) :
    (onmessageS s).2 ≠ [] ∧
    (onmessageS s).2.head? = s.q.head? ∧
    (onmessageS s).2 ++ (onmessageS s).1.q = s.q ∧
    (∀ k : Nat, k + 1 < (onmessageS s).2.length →
        durSum ((onmessageS s).2.take (k + 1)) ≤ SLICE_MS) ∧
    ((onmessageS s).1.q ≠ [] →
        (onmessageS s).1.flushing = true ∧
        (onmessageS s).1.messagesPosted = s.messagesPosted + 1) := by
  obtain ⟨hex, hrem, hpost⟩ := onmessageS_spec s
  obtain ⟨t, rest, hq⟩ := List.exists_cons_of_ne_nil h
  refine ⟨?_, ?_, ?_, ?_, ?_⟩
  · rw [hex, hq]
    by_cases hc : SLICE_MS < t.dur <;> simp [flushLoop, hc]
  · rw [hex, hq]
    exact flushLoop_head 0 t rest
  · rw [hex, hrem]
    exact flushLoop_partition s.q 0
  · intro k hk
    rw [hex] at hk
    rw [hex]
    have := flushLoop_budget s.q 0 k hk
    simpa using this
  · intro hne
    rw [hrem] at hne
    exact hpost hne

/-- C10 witness: on the concrete queue of durations 1, 1, 9 the flush runs
all three tasks (the third overruns the budget only after it completed),
leaves nothing queued, and both budget-checked prefixes stayed within the
slice. -/
theorem C10_scheduler_flush_guarantees_witness :
    (onmessageS c10s).2.head? = c10s.q.head? ∧
    (onmessageS c10s).2 ++ (onmessageS c10s).1.q = c10s.q ∧
    durSum ((onmessageS c10s).2.take 1) ≤ SLICE_MS ∧
    durSum ((onmessageS c10s).2.take 2) ≤ SLICE_MS := by
  obtain ⟨_, h2, h3, h4, _⟩ := C10_scheduler_flush_guarantees c10s (by decide)
  exact ⟨h2, h3, h4 0 (by decide), h4 1 (by decide)⟩

end MyReactSpec
